import Mathlib

/-!
Verification of the admission-control core of the Ammar0144/ai gateway.

The Go source is shallowly embedded:
  - `time.Time` values become `Int` (seconds since epoch; only differences
    and comparisons matter, and the source compares with `After`, i.e.
    strict `<`);
  - Go slices of timestamps become `List Int`;
  - the rate limiter's `map[string]*ClientLimiter` becomes an association
    list `Store` keyed by the client identity;
  - Go strings handled character-wise (strings.Split, strings.TrimSpace)
    become `List Char` with explicit recursive functions mirroring the Go
    standard library behaviour;
  - `float64` temperature becomes `ℚ`: the only operations the code
    performs on it are comparison with zero and passing the value through
    unchanged, both of which are representation independent;
  - the mutex-protected execution of `isAllowed` is modelled by atomic
    sequential application: a set of concurrent calls executes as some
    serialization of atomic steps.
-/

namespace AiGateway

/-! ## Sliding-window rate limiter (main.go: isAllowed, getRemainingRequests) -/

/-- The lazy prune performed at the top of `isAllowed` / `getRemainingRequests`:
keep exactly the timestamps strictly newer than `now` minus 60 seconds
(Go: `reqTime.After(oneMinuteAgo)`). -/
def pruneWindow (now : Int) (reqs : List Int) : List Int :=
  reqs.filter (fun t => now - 60 < t)

/-- Core of Go `isAllowed` after the client record has been fetched:
prune, deny if the valid count has reached the limit, otherwise append
`now` and admit.  Returns the decision and the new stored slice. -/
def isAllowed (now limit : Int) (reqs : List Int) : Bool × List Int :=
  let valid := pruneWindow now reqs
  if limit ≤ (valid.length : Int) then (false, valid)
  else (true, valid ++ [now])

/-- Core of Go `getRemainingRequests` for an existing client record:
count the valid timestamps and clamp `limit - validCount` at zero. -/
def remainingRequests (now limit : Int) (reqs : List Int) : Int :=
  max (limit - ((pruneWindow now reqs).length : Int)) 0

/-- Run `isAllowed` sequentially over a list of call instants, starting from
a given stored slice; returns the list of decisions and the final slice.
This is the serialization of a batch of calls, each step atomic because the
Go code holds the limiter mutex for the whole body of `isAllowed`. -/
def runIsAllowed (limit : Int) : List Int → List Int → List Bool × List Int
  | [], reqs => ([], reqs)
  | t :: ts, reqs =>
    let step := isAllowed t limit reqs
    let rest := runIsAllowed limit ts step.2
    (step.1 :: rest.1, rest.2)

/-- One record of an `isAllowed` call: the call instant, the stored slice
before the call, the decision, and the stored slice after the call. -/
structure CallRecord where
  now : Int
  pre : List Int
  admitted : Bool
  post : List Int
  deriving DecidableEq, Repr

/-- The trace of a sequence of `isAllowed` calls: one `CallRecord` per call,
in call order. -/
def isAllowedTrace (limit : Int) : List Int → List Int → List CallRecord
  | [], _ => []
  | t :: ts, reqs =>
    let step := isAllowed t limit reqs
    ⟨t, reqs, step.1, step.2⟩ :: isAllowedTrace limit ts step.2

/-! ### Basic facts about the pruned window -/

lemma pruneWindow_length_le (now : Int) (reqs : List Int) :
    (pruneWindow now reqs).length ≤ reqs.length :=
  List.length_filter_le _ _

lemma mem_pruneWindow {now : Int} {reqs : List Int} {t : Int} :
    t ∈ pruneWindow now reqs ↔ t ∈ reqs ∧ now - 60 < t := by
  simp [pruneWindow]

/-- Pruning keeps everything when every stored timestamp is in window. -/
lemma pruneWindow_eq_self {now : Int} {reqs : List Int}
    (h : ∀ t ∈ reqs, now - 60 < t) : pruneWindow now reqs = reqs := by
  simp only [pruneWindow]
  exact List.filter_eq_self.mpr (fun t ht => decide_eq_true (h t ht))

/-! ### The admission condition -/

/-- `isAllowed` admits exactly when the valid count is strictly below the
limit. -/
lemma isAllowed_fst_iff (now limit : Int) (reqs : List Int) :
    (isAllowed now limit reqs).1 = true ↔
      ((pruneWindow now reqs).length : Int) < limit := by
  by_cases h : limit ≤ ((pruneWindow now reqs).length : Int)
  · simp [isAllowed, h] <;> omega
  · simp [isAllowed, h] <;> omega

/-- On denial the stored slice is exactly the pruned slice. -/
lemma isAllowed_denied_post {now limit : Int} {reqs : List Int}
    (h : (isAllowed now limit reqs).1 = false) :
    (isAllowed now limit reqs).2 = pruneWindow now reqs := by
  by_cases hc : limit ≤ ((pruneWindow now reqs).length : Int)
  · simp [isAllowed, hc]
  · simp [isAllowed, hc] at h

/-- On admission the stored slice is the pruned slice with `now` appended. -/
lemma isAllowed_admitted_post {now limit : Int} {reqs : List Int}
    (h : (isAllowed now limit reqs).1 = true) :
    (isAllowed now limit reqs).2 = pruneWindow now reqs ++ [now] := by
  by_cases hc : limit ≤ ((pruneWindow now reqs).length : Int)
  · simp [isAllowed, hc] at h
  · simp [isAllowed, hc]

/-! ### Runs of calls whose instants all lie in one 60-second window -/

/-- Workhorse: if every timestamp already stored and every call instant lies
strictly inside the window `(B - 60, B]`, then no prune ever removes
anything, so starting from a stored slice of length `k ≤ N` the decisions
are exactly `N - k` admissions followed by denials. -/
lemma runIsAllowed_in_window (B : Int) (N : Nat) (ts : List Int) :
    ∀ start : List Int,
      (∀ x ∈ start, B - 60 < x) →
      (∀ t ∈ ts, B - 60 < t ∧ t ≤ B) →
      start.length ≤ N →
      (runIsAllowed (N : Int) ts start).1
        = List.replicate (min ts.length (N - start.length)) true
            ++ List.replicate (ts.length - (N - start.length)) false := by
  induction ts with
  | nil => intro start _ _ _; simp [runIsAllowed]
  | cons t ts ih =>
    intro start hstart hts hlen
    have hwin : ∀ x ∈ start, t - 60 < x := by
      intro x hx
      have h1 := hstart x hx
      have h2 := (hts t (List.mem_cons_self _ _)).2
      omega
    have hprune : pruneWindow t start = start := pruneWindow_eq_self hwin
    have htail : ∀ u ∈ ts, B - 60 < u ∧ u ≤ B :=
      fun u hu => hts u (List.mem_cons_of_mem _ hu)
    by_cases hfull : (N : Int) ≤ ((pruneWindow t start).length : Int)
    · have hNlen : start.length = N := by
        rw [hprune] at hfull; omega
      have hge : N ≤ start.length := by omega
      have hstep1 : (isAllowed t (N : Int) start).1 = false := by
        simp [isAllowed, hprune, hge]
      have hstep2 : (isAllowed t (N : Int) start).2 = start := by
        rw [isAllowed_denied_post hstep1, hprune]
      have hrec := ih start hstart htail hlen
      simp only [runIsAllowed, hstep1, hstep2, hrec]
      have h1 : min (ts.length + 1) (N - start.length) = 0 := by omega
      have h2 : min ts.length (N - start.length) = 0 := by omega
      have h3 : ts.length + 1 - (N - start.length) = ts.length + 1 := by omega
      have h4 : ts.length - (N - start.length) = ts.length := by omega
      simp [h1, h2, h3, h4, List.replicate_succ]
    · have hklt : start.length < N := by
        rw [hprune] at hfull; omega
      have hngt : ¬ N ≤ start.length := by omega
      have hstep1 : (isAllowed t (N : Int) start).1 = true := by
        simp [isAllowed, hprune, hngt]
      have hstep2 : (isAllowed t (N : Int) start).2 = start ++ [t] := by
        rw [isAllowed_admitted_post hstep1, hprune]
      have hstart' : ∀ x ∈ start ++ [t], B - 60 < x := by
        intro x hx
        rcases List.mem_append.mp hx with h | h
        · exact hstart x h
        · have hx' : x = t := by simpa using h
          rw [hx']
          exact (hts t (List.mem_cons_self _ _)).1
      have hlen' : (start ++ [t]).length ≤ N := by
        simp only [List.length_append, List.length_singleton]
        omega
      have hrec := ih (start ++ [t]) hstart' htail hlen'
      simp only [runIsAllowed, hstep1, hstep2, hrec]
      have h1 : min (ts.length + 1) (N - start.length)
          = min ts.length (N - (start ++ [t]).length) + 1 := by
        simp only [List.length_append, List.length_singleton]
        omega
      have h2 : ts.length + 1 - (N - start.length)
          = ts.length - (N - (start ++ [t]).length) := by
        simp only [List.length_append, List.length_singleton]
        omega
      simp only [List.length_cons, h1, h2, List.replicate_succ, List.cons_append]

/-! ## Claim C1: exact sliding-window admission -/

/-- C1: `isAllowed` admits exactly when the number of recorded timestamps
strictly newer than `now - 60` is strictly below the limit; a quota of `0`
always denies; and for any `N + 1` call instants lying inside one rolling
60-second window `(B - 60, B]`, starting from an empty window with quota
`N`, the first `N` calls are admitted and the `(N+1)`-th is denied. -/
theorem isAllowed_sliding_window_spec :
    (∀ (now limit : Int) (reqs : List Int),
        (isAllowed now limit reqs).1 = true ↔
          ((pruneWindow now reqs).length : Int) < limit)
    ∧ (∀ (now : Int) (reqs : List Int), (isAllowed now 0 reqs).1 = false)
    ∧ (∀ (N : Nat) (B : Int) (ts : List Int),
        ts.length = N + 1 →
        (∀ t ∈ ts, B - 60 < t ∧ t ≤ B) →
        (runIsAllowed (N : Int) ts []).1 = List.replicate N true ++ [false]) := by
  refine ⟨isAllowed_fst_iff, ?_, ?_⟩
  · intro now reqs
    cases hb : (isAllowed now 0 reqs).1 with
    | false => rfl
    | true =>
      have h := (isAllowed_fst_iff now 0 reqs).mp hb
      omega
  · intro N B ts hlen hts
    have h := runIsAllowed_in_window B N ts [] (by simp) hts (by simp)
    rw [h, hlen]
    have h1 : min (N + 1) (N - ([] : List Int).length) = N := by simp
    have h2 : N + 1 - (N - ([] : List Int).length) = 1 := by simp
    rw [h1, h2]
    simp

/-- Witness for C1 at quota 2 and call instants 0, 10, 20. -/
theorem isAllowed_sliding_window_spec_witness :
    (runIsAllowed (2 : Int) [0, 10, 20] []).1 = [true, true, false] := by
  have h := isAllowed_sliding_window_spec.2.2 2 20 [0, 10, 20] (by decide)
    (by decide)
  simpa using h

/-! ## Claim C2: concurrent admissions against a quota

A batch of `M` requests arriving concurrently from one identity executes as
a serialization of atomic `isAllowed` steps, because the Go code holds
`rateLimiter.mutex` (and the client record mutex) for the whole body of
`isAllowed`; each step therefore observes the count left by the previous
one.  We model the batch as `M` calls at one instant `t`. -/

/-- C2: `M ≥ N` concurrent requests from one identity against quota `N`
yield exactly `N` admissions and `M - N` denials — no over-admission under
race, since each serialized step observes the count left by the previous
one. -/
theorem concurrent_admissions_exact (M N : Nat) (t : Int) (hMN : N ≤ M) :
    ((runIsAllowed (N : Int) (List.replicate M t) []).1.count true = N)
    ∧ ((runIsAllowed (N : Int) (List.replicate M t) []).1.count false = M - N) := by
  have h := runIsAllowed_in_window t N (List.replicate M t) [] (by simp)
    (by
      intro u hu
      have := List.eq_of_mem_replicate hu
      omega)
    (by simp)
  rw [h]
  constructor <;> simp [List.count_append, List.count_replicate] <;> omega

/-- Witness for C2 at 5 concurrent requests against quota 3. -/
theorem concurrent_admissions_exact_witness :
    ((runIsAllowed (3 : Int) (List.replicate 5 0) []).1.count true = 3)
    ∧ ((runIsAllowed (3 : Int) (List.replicate 5 0) []).1.count false = 2) :=
  concurrent_admissions_exact 5 3 0 (by decide)

/-! ## Claim C10: invariant of the per-client window -/

/-- A call never grows the stored slice beyond the quota `N` when it was
within the quota before the call. -/
lemma isAllowed_post_length_le {now : Int} {N : Nat} {reqs : List Int}
    (h : reqs.length ≤ N) : (isAllowed now (N : Int) reqs).2.length ≤ N := by
  have hp := pruneWindow_length_le now reqs
  by_cases hc : (N : Int) ≤ ((pruneWindow now reqs).length : Int)
  · have heq : (isAllowed now (N : Int) reqs).2 = pruneWindow now reqs := by
      simp [isAllowed, hc]
    rw [heq]
    omega
  · have heq : (isAllowed now (N : Int) reqs).2
        = pruneWindow now reqs ++ [now] := by
      simp [isAllowed, hc]
    rw [heq]
    simp only [List.length_append, List.length_singleton]
    omega

/-- Every timestamp retained after a call is strictly inside the call's
60-second window. -/
lemma isAllowed_post_in_window (now limit : Int) (reqs : List Int) :
    ∀ x ∈ (isAllowed now limit reqs).2, now - 60 < x := by
  intro x hx
  by_cases hc : limit ≤ ((pruneWindow now reqs).length : Int)
  · have heq : (isAllowed now limit reqs).2 = pruneWindow now reqs := by
      simp [isAllowed, hc]
    rw [heq] at hx
    exact (mem_pruneWindow.mp hx).2
  · have heq : (isAllowed now limit reqs).2 = pruneWindow now reqs ++ [now] := by
      simp [isAllowed, hc]
    rw [heq] at hx
    rcases List.mem_append.mp hx with h | h
    · exact (mem_pruneWindow.mp h).2
    · have hx' : x = now := by simpa using h
      omega

/-- The invariant holds at every record of any trace whose starting slice is
within the quota. -/
lemma isAllowedTrace_invariant (N : Nat) (ts : List Int) :
    ∀ start : List Int, start.length ≤ N →
      ∀ r ∈ isAllowedTrace (N : Int) ts start,
        r.post.length ≤ N ∧ (∀ x ∈ r.post, r.now - 60 < x)
          ∧ (r.admitted = false → r.post = pruneWindow r.now r.pre) := by
  induction ts with
  | nil =>
    intro start _ r hr
    simp [isAllowedTrace] at hr
  | cons t ts ih =>
    intro start hlen r hr
    simp only [isAllowedTrace] at hr
    rcases List.mem_cons.mp hr with h | h
    · subst h
      exact ⟨isAllowed_post_length_le hlen, isAllowed_post_in_window t _ start,
        fun hdeny => isAllowed_denied_post hdeny⟩
    · exact ih _ (isAllowed_post_length_le hlen) r h

/-- C10: starting from an empty window and calling `isAllowed` any number
of times with fixed quota `N`, after each call the stored slice holds at
most `N` timestamps, every retained timestamp is strictly newer than that
call's `now - 60`, and a denied call stores exactly the pruned prior slice
(denial never appends). -/
theorem window_invariant_after_each_call (N : Nat) (ts : List Int)
    (r : CallRecord) (hr : r ∈ isAllowedTrace (N : Int) ts []) :
    r.post.length ≤ N ∧ (∀ x ∈ r.post, r.now - 60 < x)
      ∧ (r.admitted = false → r.post = pruneWindow r.now r.pre) :=
  isAllowedTrace_invariant N ts [] (by simp) r hr

/-- Witness for C10: the denied second call of the run 0, 10, 70 at quota 1
satisfies the invariant. -/
theorem window_invariant_after_each_call_witness :
    ((⟨10, [0], false, [0]⟩ : CallRecord) ∈ isAllowedTrace (1 : Int) [0, 10, 70] [])
    ∧ ((⟨10, [0], false, [0]⟩ : CallRecord).post.length ≤ 1
        ∧ (∀ x ∈ (⟨10, [0], false, [0]⟩ : CallRecord).post,
            (⟨10, [0], false, [0]⟩ : CallRecord).now - 60 < x)
        ∧ ((⟨10, [0], false, [0]⟩ : CallRecord).admitted = false →
            (⟨10, [0], false, [0]⟩ : CallRecord).post
              = pruneWindow (⟨10, [0], false, [0]⟩ : CallRecord).now
                  (⟨10, [0], false, [0]⟩ : CallRecord).pre)) :=
  ⟨by decide,
    window_invariant_after_each_call 1 [0, 10, 70] ⟨10, [0], false, [0]⟩ (by decide)⟩

/-! ## Client identity resolution (main.go: getClientIP)

Go strings are modelled as `List Char`; `goSplit` mirrors `strings.Split`
with a one-character separator (the source only splits on a single comma or
colon) and `goTrimSpace` mirrors `strings.TrimSpace` (leading and trailing
whitespace removed; the exact whitespace class is `Char.isWhitespace`,
which agrees with Go on the characters relevant here). -/

/-- `strings.Split` on a one-character separator: the list of fields between
occurrences of `c`, always nonempty. -/
def goSplit (c : Char) : List Char → List (List Char)
  | [] => [[]]
  | x :: xs =>
    if x = c then [] :: goSplit c xs
    else
      match goSplit c xs with
      | [] => [[x]]
      | h :: t => (x :: h) :: t

/-- `strings.TrimSpace`: drop leading and trailing whitespace. -/
def goTrimSpace (s : List Char) : List Char :=
  (((s.dropWhile Char.isWhitespace).reverse).dropWhile Char.isWhitespace).reverse

/-- Core of Go `getClientIP` on character lists: first comma-separated
field of X-Forwarded-For trimmed, else X-Real-IP verbatim, else the part of
RemoteAddr before the first colon. -/
def getClientIPCore (xff xri remoteAddr : List Char) : List Char :=
  if xff ≠ [] then goTrimSpace ((goSplit ',' xff).headD [])
  else if xri ≠ [] then xri
  else (goSplit ':' remoteAddr).headD []

/-- An inbound HTTP request as the admission-control core observes it. -/
structure Request where
  method : String
  xff : String
  xri : String
  remoteAddr : String
  deriving DecidableEq, Repr

/-- Go `getClientIP` on a request. -/
def getClientIP (r : Request) : String :=
  (getClientIPCore r.xff.toList r.xri.toList r.remoteAddr.toList).asString

/-- A split always has at least one field. -/
lemma goSplit_ne_nil (c : Char) (s : List Char) : goSplit c s ≠ [] := by
  cases s with
  | nil => simp [goSplit]
  | cons x xs =>
    simp only [goSplit]
    by_cases h : x = c
    · simp [h]
    · simp only [if_neg h]
      cases goSplit c xs <;> simp

/-- The head field of a split is the longest run before the first
separator. -/
lemma goSplit_headD (c : Char) (s : List Char) :
    (goSplit c s).headD [] = s.takeWhile (fun x => x ≠ c) := by
  induction s with
  | nil => simp [goSplit]
  | cons x xs ih =>
    by_cases h : x = c
    · simp [goSplit, h, List.takeWhile_cons]
    · simp only [goSplit, if_neg h]
      cases hsp : goSplit c xs with
      | nil => exact absurd hsp (goSplit_ne_nil c xs)
      | cons hd tl =>
        rw [hsp] at ih
        simp only [List.headD_cons] at ih
        simp [hsp, List.takeWhile_cons, h, ih]

/-- `takeWhile` walks through a whole first segment on which the predicate
holds. -/
lemma takeWhile_append_of_all {α : Type} {p : α → Bool} {l₁ l₂ : List α}
    (h : ∀ x ∈ l₁, p x = true) :
    (l₁ ++ l₂).takeWhile p = l₁ ++ l₂.takeWhile p := by
  induction l₁ with
  | nil => simp
  | cons x xs ih =>
    have hx : p x = true := h x (List.mem_cons_self _ _)
    have ih' := ih (fun y hy => h y (List.mem_cons_of_mem _ hy))
    simp [List.takeWhile_cons, hx, ih']

/-! ## Claim C8: client identity precedence -/

/-- C8 counterexample: the fallback does not strip the port suffix from the
peer address; it keeps only the part before the FIRST colon.  For the IPv6
peer address with port, the code yields the single character before the
first colon instead of the address with its port suffix removed. -/
theorem client_ip_port_strip_counterexample :
    getClientIPCore [] [] ("[::1]:8080".toList) = "[".toList
    ∧ "[".toList ≠ "[::1]".toList := by
  exact ⟨by decide, by decide⟩

/-- C8 (amended): the first comma-separated value of X-Forwarded-For,
trimmed, wins when that header is non-empty; otherwise X-Real-IP verbatim
when non-empty; otherwise the part of the peer address before the first
colon — which equals the address with its port suffix stripped whenever
the host part itself contains no colon. -/
theorem client_ip_precedence (xff xri ra : List Char) :
    (xff ≠ [] → getClientIPCore xff xri ra
        = goTrimSpace (xff.takeWhile (fun x => x ≠ ',')))
    ∧ (xff = [] → xri ≠ [] → getClientIPCore xff xri ra = xri)
    ∧ (xff = [] → xri = [] →
        getClientIPCore xff xri ra = ra.takeWhile (fun x => x ≠ ':'))
    ∧ (∀ host port : List Char, ':' ∉ host →
        getClientIPCore [] [] (host ++ ':' :: port) = host) := by
  refine ⟨?_, ?_, ?_, ?_⟩
  · intro h
    unfold getClientIPCore
    rw [if_pos h, goSplit_headD]
  · intro h1 h2
    unfold getClientIPCore
    rw [if_neg (by simp [h1]), if_pos h2]
  · intro h1 h2
    unfold getClientIPCore
    rw [if_neg (by simp [h1]), if_neg (by simp [h2]), goSplit_headD]
  · intro host port hh
    have hall : ∀ x ∈ host, (fun x => decide (x ≠ ':')) x = true := by
      intro x hx
      simp only [decide_eq_true_eq]
      intro hxc
      exact hh (hxc ▸ hx)
    unfold getClientIPCore
    rw [if_neg (by simp), if_neg (by simp), goSplit_headD,
      takeWhile_append_of_all hall]
    simp [List.takeWhile_cons]

/-- Witness for C8: the transport fallback on a colon-free host with a port
suffix returns exactly the host. -/
theorem client_ip_precedence_witness :
    getClientIPCore [] [] (("1.2.3.4".toList) ++ ':' :: ("8080".toList))
      = "1.2.3.4".toList :=
  (client_ip_precedence [] [] []).2.2.2 ("1.2.3.4".toList) ("8080".toList)
    (by decide)

/-! ## The client store (main.go: RateLimiter.clients)

The Go map `map[string]*ClientLimiter` is modelled as an association list
from identity to stored timestamp slice; `isAllowedStore` is Go `isAllowed`
including its get-or-create of the client record, and
`getRemainingRequests` is the Go function of the same name including its
nil-record branch. -/

/-- The rate limiter's client map. -/
abbrev Store := List (String × List Int)

/-- Map lookup. -/
def lookupClient (s : Store) (ip : String) : Option (List Int) :=
  (s.find? (fun c => c.1 == ip)).map (fun c => c.2)

/-- Map write: replace the entry for `ip`, or add one. -/
def updateClient (s : Store) (ip : String) (reqs : List Int) : Store :=
  match s with
  | [] => [(ip, reqs)]
  | c :: rest =>
    if c.1 == ip then (ip, reqs) :: rest
    else c :: updateClient rest ip reqs

/-- Go `isAllowed` at store level: fetch (or create empty) the client's
slice, run the windowed check, store the new slice. -/
def isAllowedStore (now : Int) (s : Store) (ip : String) (limit : Int) :
    Bool × Store :=
  let reqs := (lookupClient s ip).getD []
  let res := isAllowed now limit reqs
  (res.1, updateClient s ip res.2)

/-- Go `getRemainingRequests`: `limit - 1` for an unknown client, otherwise
`limit` minus the valid count, clamped at zero. -/
def getRemainingRequests (now : Int) (s : Store) (ip : String) (limit : Int) :
    Int :=
  match lookupClient s ip with
  | none => limit - 1
  | some reqs => remainingRequests now limit reqs

lemma lookupClient_updateClient (s : Store) (ip : String) (v : List Int) :
    lookupClient (updateClient s ip v) ip = some v := by
  induction s with
  | nil => simp [updateClient, lookupClient]
  | cons c rest ih =>
    by_cases h : c.1 == ip
    · simp [updateClient, h, lookupClient]
    · simp only [updateClient, h, Bool.false_eq_true, if_false]
      simpa [lookupClient, List.find?, h] using ih

/-! ## Responses and the middleware pipeline (main.go) -/

/-- Response bodies the admission-control core can produce.  The fixed 429
JSON literal of `rateLimitMiddleware` and the `models.ErrorResponse`
envelope of `sendErrorResponse` are kept symbolic; their contents are
constants in the source. -/
inductive ResponseBody where
  /-- No body written before the inner handler runs. -/
  | empty : ResponseBody
  /-- The fixed rate-limit-exceeded JSON literal of `rateLimitMiddleware`. -/
  | rateLimitError : ResponseBody
  /-- `models.ErrorResponse` as written by `sendErrorResponse`. -/
  | envelope (error : String) (code : Nat) (message : String) : ResponseBody
  /-- A success payload (generated text, echoed user id, model name). -/
  | success (text : String) (userID : String) (model : String) : ResponseBody
  /-- The health-check payload. -/
  | health : ResponseBody
  /-- The model-info payload forwarded from the backend. -/
  | modelInfo : ResponseBody
  deriving DecidableEq, Repr

/-- What the gateway writes for one request: status code, the three
X-RateLimit headers when set, and the body. -/
structure GatewayResponse where
  status : Nat
  rlLimit : Option Int
  rlRemaining : Option Int
  rlReset : Option Int
  body : ResponseBody
  deriving DecidableEq, Repr

/-- A route handler as the middleware sees it: it may read the request and
the store and produces a response (handlers never write the store; the
type allows it so the pipeline is compositional). -/
def Handler := Request → Store → GatewayResponse × Store

/-- Go `rateLimitMiddleware`: resolve the identity, check admission; on
denial attach limit/0/now+60 headers and the fixed 429 body without
invoking the handler; on admission attach limit/remaining/now+60 headers
and invoke the handler. -/
def rateLimitMiddleware (requestsPerMinute : Int) (next : Handler)
    (now : Int) (r : Request) (s : Store) : GatewayResponse × Store :=
  let clientIP := getClientIP r
  let res := isAllowedStore now s clientIP requestsPerMinute
  if !res.1 then
    (⟨429, some requestsPerMinute, some 0, some (now + 60),
      ResponseBody.rateLimitError⟩, res.2)
  else
    let remaining := getRemainingRequests now res.2 clientIP requestsPerMinute
    let inner := next r res.2
    (⟨inner.1.status, some requestsPerMinute, some remaining, some (now + 60),
      inner.1.body⟩, inner.2)

/-- Go `corsMiddleware`: answer the preflight method immediately with 200,
otherwise pass through. -/
def corsMiddleware (next : Request → Store → GatewayResponse × Store)
    (r : Request) (s : Store) : GatewayResponse × Store :=
  if r.method == "OPTIONS" then
    (⟨200, none, none, none, ResponseBody.empty⟩, s)
  else next r s

/-- Go `protectedHandler`: CORS outside, rate limiting inside. -/
def protectedHandler (handler : Handler) (rateLimit : Int)
    (now : Int) (r : Request) (s : Store) : GatewayResponse × Store :=
  corsMiddleware (rateLimitMiddleware rateLimit handler now) r s

/-! ## Claim C4: CORS preflight consumes no quota -/

/-- C4: an OPTIONS request is answered immediately with 200 by the CORS
stage and the rate limiter's store is returned unchanged — no timestamp is
recorded and no quota consumed for any identity, because the CORS stage
short-circuits before the rate-limit stage runs. -/
theorem options_preflight_leaves_store_unchanged (handler : Handler)
    (rateLimit now : Int) (r : Request) (s : Store)
    (h : r.method = "OPTIONS") :
    protectedHandler handler rateLimit now r s
      = (⟨200, none, none, none, ResponseBody.empty⟩, s) := by
  simp [protectedHandler, corsMiddleware, h]

/-- Witness for C4 on a concrete store and request. -/
theorem options_preflight_leaves_store_unchanged_witness :
    protectedHandler
        (fun _ s => (⟨200, none, none, none, ResponseBody.health⟩, s)) 30 0
        ⟨"OPTIONS", "", "", "9.9.9.9:1234"⟩ [("9.9.9.9", [0])]
      = (⟨200, none, none, none, ResponseBody.empty⟩, [("9.9.9.9", [0])]) :=
  options_preflight_leaves_store_unchanged _ 30 0 _ _ rfl

/-! ## Claim C3: rate-limit response headers -/

/-- Re-pruning after appending the current instant changes nothing. -/
lemma pruneWindow_append_now (now : Int) (reqs : List Int) :
    pruneWindow now (pruneWindow now reqs ++ [now])
      = pruneWindow now reqs ++ [now] := by
  apply pruneWindow_eq_self
  intro x hx
  rcases List.mem_append.mp hx with h | h
  · exact (mem_pruneWindow.mp h).2
  · have hx' : x = now := by simpa using h
    omega

/-- After an admission, `getRemainingRequests` reports the quota minus the
new valid count (which is nonnegative, so the clamp is inactive). -/
lemma getRemaining_after_admit (now : Int) (s : Store) (ip : String)
    (limit : Int) (h : (isAllowedStore now s ip limit).1 = true) :
    getRemainingRequests now (isAllowedStore now s ip limit).2 ip limit
      = limit
        - (((pruneWindow now ((lookupClient s ip).getD [])).length : Int) + 1) := by
  set reqs := (lookupClient s ip).getD [] with hreqs
  have hadm : (isAllowed now limit reqs).1 = true := h
  have hlt : ((pruneWindow now reqs).length : Int) < limit :=
    (isAllowed_fst_iff now limit reqs).mp hadm
  have hpost : (isAllowed now limit reqs).2 = pruneWindow now reqs ++ [now] :=
    isAllowed_admitted_post hadm
  have hstore : (isAllowedStore now s ip limit).2
      = updateClient s ip (pruneWindow now reqs ++ [now]) := by
    simp only [isAllowedStore, ← hreqs, hpost]
  rw [hstore]
  simp only [getRemainingRequests, lookupClient_updateClient,
    remainingRequests, pruneWindow_append_now]
  simp only [List.length_append, List.length_singleton]
  omega

/-- C3 counterexample: on a denied request the middleware sets
X-RateLimit-Reset to `now + 60`, not to the oldest retained timestamp plus
60.  With stored timestamps 0 and 1, quota 2 and `now = 30`, the oldest
retained timestamp is 0, so the claim predicts reset 60, but the code
answers 90. -/
theorem denied_reset_counterexample :
    ((rateLimitMiddleware 2
        (fun _ s => (⟨200, none, none, none, ResponseBody.empty⟩, s)) 30
        ⟨"GET", "", "", "1.2.3.4:5"⟩ [("1.2.3.4", [0, 1])]).1.status = 429)
    ∧ ((rateLimitMiddleware 2
        (fun _ s => (⟨200, none, none, none, ResponseBody.empty⟩, s)) 30
        ⟨"GET", "", "", "1.2.3.4:5"⟩ [("1.2.3.4", [0, 1])]).1.rlReset
          = some 90)
    ∧ ((90 : Int) ≠ 0 + 60) :=
  ⟨by decide, by decide, by decide⟩

/-- C3 (amended): on a denied request the middleware returns 429 with
X-RateLimit-Remaining 0 and X-RateLimit-Reset `now + 60` (not the oldest
retained timestamp plus 60); on an admitted request it passes the handler's
status through and attaches X-RateLimit-Remaining equal to the quota minus
the new valid count and X-RateLimit-Reset `now + 60`. -/
theorem rateLimit_headers_spec (requestsPerMinute : Int) (next : Handler)
    (now : Int) (r : Request) (s : Store) :
    ((isAllowedStore now s (getClientIP r) requestsPerMinute).1 = false →
      (rateLimitMiddleware requestsPerMinute next now r s).1
        = ⟨429, some requestsPerMinute, some 0, some (now + 60),
            ResponseBody.rateLimitError⟩)
    ∧ ((isAllowedStore now s (getClientIP r) requestsPerMinute).1 = true →
      (rateLimitMiddleware requestsPerMinute next now r s).1.status
          = (next r
              (isAllowedStore now s (getClientIP r) requestsPerMinute).2).1.status
        ∧ (rateLimitMiddleware requestsPerMinute next now r s).1.rlRemaining
            = some (requestsPerMinute
                - (((pruneWindow now
                      ((lookupClient s (getClientIP r)).getD [])).length : Int)
                    + 1))
        ∧ (rateLimitMiddleware requestsPerMinute next now r s).1.rlReset
            = some (now + 60)) := by
  constructor
  · intro hdeny
    simp [rateLimitMiddleware, hdeny]
  · intro hadm
    have hrem := getRemaining_after_admit now s (getClientIP r)
      requestsPerMinute hadm
    simp [rateLimitMiddleware, hadm, hrem]

/-- Witness for C3 (amended), exercising both branches: identity with two
fresh timestamps and quota 2 is denied with reset now + 60; a fresh
identity with quota 2 is admitted with remaining 1 and reset now + 60. -/
theorem rateLimit_headers_spec_witness :
    ((rateLimitMiddleware 2
        (fun _ s => (⟨200, none, none, none, ResponseBody.empty⟩, s)) 30
        ⟨"GET", "", "", "1.2.3.4:5"⟩ [("1.2.3.4", [0, 1])]).1
      = ⟨429, some 2, some 0, some 90, ResponseBody.rateLimitError⟩)
    ∧ ((rateLimitMiddleware 2
        (fun _ s => (⟨200, none, none, none, ResponseBody.empty⟩, s)) 30
        ⟨"GET", "", "", "5.6.7.8:5"⟩ []).1.rlRemaining = some 1) := by
  constructor
  · exact (rateLimit_headers_spec 2
      (fun _ s => (⟨200, none, none, none, ResponseBody.empty⟩, s)) 30
      ⟨"GET", "", "", "1.2.3.4:5"⟩ [("1.2.3.4", [0, 1])]).1 (by decide)
  · have h := ((rateLimit_headers_spec 2
      (fun _ s => (⟨200, none, none, none, ResponseBody.empty⟩, s)) 30
      ⟨"GET", "", "", "5.6.7.8:5"⟩ []).2 (by decide)).2.1
    rw [h]
    decide

/-! ## Claim C5: the reclaim sweep (main.go: cleanupOldClients)

One cycle of the 5-minute ticker body.  The Go loop ranges over the map and
calls `delete` on the CURRENT key, inside the loop body, when the client
has no request newer than `now - 5min`: removal is inline, performed while
the map is being iterated (the Go language guarantees this is safe for the
key currently produced by the range).  On an association list the loop is
the structural recursion `cleanupSweep`; `cleanupIterStates` records the
successive map states the loop passes through, making the inline removal
observable.  The spec instead describes a two-phase form — collect the
idle identities while iterating, remove them only afterwards — which
`deferredSweep` transcribes; the two agree on the FINAL store for every
store whose keys are distinct (as the keys of a Go map always are), but
not on the intermediate states. -/

/-- The per-client recency check inside the sweep: is any stored timestamp
strictly newer than `now` minus five minutes? -/
def hasRecentRequests (now : Int) (reqs : List Int) : Bool :=
  reqs.any (fun t => now - 300 < t)

/-- One sweep cycle as the Go code performs it: iterate, deleting the
current entry when it has no recent request. -/
def cleanupSweep (now : Int) : Store → Store
  | [] => []
  | c :: rest =>
    if hasRecentRequests now c.2 then c :: cleanupSweep now rest
    else cleanupSweep now rest

/-- The successive states of the client map while the Go range loop runs:
one entry per processed client, recording the map contents right after
that client is handled — the already-visited retained entries (`kept`),
the current entry unless it was just deleted, and the still-unvisited
remainder. -/
def cleanupIterStates (now : Int) (kept : Store) : Store → List Store
  | [] => []
  | c :: rest =>
    if hasRecentRequests now c.2 then
      (kept ++ [c] ++ rest) :: cleanupIterStates now (kept ++ [c]) rest
    else
      (kept ++ rest) :: cleanupIterStates now kept rest

/-- The identities scheduled for removal: those with no recent request. -/
def staleClients (now : Int) (s : Store) : List String :=
  (s.filter (fun c => !hasRecentRequests now c.2)).map (fun c => c.1)

/-- Modelled from the spec: removal performed only after iteration over the
store completes — first collect the idle identities, then delete exactly
those keys. -/
def deferredSweep (now : Int) (s : Store) : Store :=
  s.filter (fun c => decide (c.1 ∉ staleClients now s))

lemma cleanupSweep_eq_filter (now : Int) (s : Store) :
    cleanupSweep now s = s.filter (fun c => hasRecentRequests now c.2) := by
  induction s with
  | nil => rfl
  | cons c rest ih =>
    by_cases h : hasRecentRequests now c.2
    · simp [cleanupSweep, h, ih]
    · simp [cleanupSweep, h, ih]

/-- Membership in `staleClients` is exactly staleness of the entry, given
distinct keys. -/
lemma mem_staleClients (now : Int) {s : Store}
    (hnd : (s.map (fun c => c.1)).Nodup) {c : String × List Int}
    (hc : c ∈ s) :
    c.1 ∈ staleClients now s ↔ hasRecentRequests now c.2 = false := by
  constructor
  · intro hmem
    rcases List.mem_map.mp hmem with ⟨c', hc', hkey⟩
    have hc'mem : c' ∈ s := (List.mem_filter.mp hc').1
    have hstale : (!hasRecentRequests now c'.2) = true :=
      (List.mem_filter.mp hc').2
    have hcc : c' = c := List.inj_on_of_nodup_map hnd hc'mem hc hkey
    rw [← hcc]
    simpa using hstale
  · intro hstale
    have hcf : c ∈ s.filter (fun c => !hasRecentRequests now c.2) :=
      List.mem_filter.mpr ⟨hc, by simp [hstale]⟩
    exact List.mem_map_of_mem (fun c => c.1) hcf

lemma cleanupIterStates_cons_pos {now : Int} {c : String × List Int}
    {kept rest : Store} (h : hasRecentRequests now c.2 = true) :
    cleanupIterStates now kept (c :: rest)
      = (kept ++ [c] ++ rest) :: cleanupIterStates now (kept ++ [c]) rest := by
  simp [cleanupIterStates, h]

lemma cleanupIterStates_cons_neg {now : Int} {c : String × List Int}
    {kept rest : Store} (h : hasRecentRequests now c.2 = false) :
    cleanupIterStates now kept (c :: rest)
      = (kept ++ rest) :: cleanupIterStates now kept rest := by
  simp [cleanupIterStates, h]

/-- The iteration ends in the sweep's result: the last recorded map state
is the already-retained entries followed by the sweep of the remainder. -/
lemma cleanupIterStates_getLastD (now : Int) :
    ∀ (s kept d : Store), s ≠ [] →
      (cleanupIterStates now kept s).getLastD d = kept ++ cleanupSweep now s := by
  intro s
  induction s with
  | nil =>
    intro kept d h
    exact absurd rfl h
  | cons c rest ih =>
    intro kept d _
    cases h : hasRecentRequests now c.2 with
    | true =>
      rw [cleanupIterStates_cons_pos h, List.getLastD_cons]
      cases rest with
      | nil => simp [cleanupIterStates, cleanupSweep, h]
      | cons c2 r2 =>
        rw [ih (kept ++ [c]) (kept ++ [c] ++ (c2 :: r2)) (by simp)]
        simp [cleanupSweep, h]
    | false =>
      rw [cleanupIterStates_cons_neg h, List.getLastD_cons]
      cases rest with
      | nil => simp [cleanupIterStates, cleanupSweep, h]
      | cons c2 r2 =>
        rw [ih kept (kept ++ (c2 :: r2)) (by simp)]
        simp [cleanupSweep, h]

/-- C5 counterexample: removal does NOT wait for iteration to complete.
With idle client "a" and active client "b" at `now = 600`, the loop takes
two steps, and the map state right after the first step — while entry
("b", [400]) is still unvisited — has already lost ("a", [0]): the claim
that "removal from the store occurs after iteration completes, never while
the structural map is being iterated" predicts that every state observed
during iteration still equals the original two-entry store. -/
theorem cleanup_inline_delete_counterexample :
    cleanupIterStates 600 [] [("a", [0]), ("b", [400])]
      = [[("b", [400])], [("b", [400])]]
    ∧ (("a", ([0] : List Int)) ∉
        (cleanupIterStates 600 [] [("a", [0]), ("b", [400])]).headD [])
    ∧ (cleanupIterStates 600 [] [("a", [0]), ("b", [400])]).length = 2
    ∧ (cleanupIterStates 600 [] [("a", [0]), ("b", [400])]).headD []
        ≠ [("a", [0]), ("b", [400])] :=
  ⟨by decide, by decide, by decide, by decide⟩

/-- C5 (amended): a sweep cycle removes exactly the client identities whose
timestamp sequence contains nothing strictly newer than `now` minus five
minutes; the removal is performed inline on the current entry while the
map is iterated (Go's range permits deleting the key it just produced),
and the iteration ends in the same final store the spec's two-phase
procedure — collect the idle identities, remove them only after iteration
completes — would produce, for stores with distinct keys, as a Go map's
keys always are. -/
theorem cleanup_removes_exactly_idle (now : Int) (s : Store)
    (hnd : (s.map (fun c => c.1)).Nodup) :
    (∀ c, c ∈ cleanupSweep now s ↔ c ∈ s ∧ ∃ t ∈ c.2, now - 300 < t)
    ∧ (s ≠ [] →
        (cleanupIterStates now [] s).getLastD [] = cleanupSweep now s)
    ∧ cleanupSweep now s = deferredSweep now s := by
  refine ⟨?_, ?_, ?_⟩
  · intro c
    rw [cleanupSweep_eq_filter, List.mem_filter]
    simp [hasRecentRequests, List.any_eq_true]
  · intro hne
    rw [cleanupIterStates_getLastD now s [] [] hne]
    simp
  · rw [cleanupSweep_eq_filter, deferredSweep]
    apply List.filter_congr
    intro c hc
    have h := mem_staleClients now hnd hc
    cases hr : hasRecentRequests now c.2 with
    | false =>
      have hmem : c.1 ∈ staleClients now s := h.mpr hr
      simp [hmem]
    | true =>
      have hmem : c.1 ∉ staleClients now s := fun hm => by
        simp [h.mp hm] at hr
      simp [hmem]

/-- Witness for C5 (amended): the idle identity is removed, the active one
kept, the inline-deleting iteration ends in the sweep's result, and that
result agrees with the deferred two-phase sweep. -/
theorem cleanup_removes_exactly_idle_witness :
    ((("b", [400]) ∈ cleanupSweep 600 [("a", [0]), ("b", [400])])
      ↔ ((("b", ([400] : List Int)) ∈ ([("a", [0]), ("b", [400])] : Store))
          ∧ ∃ t ∈ [(400 : Int)], (600 : Int) - 300 < t))
    ∧ (cleanupIterStates 600 [] [("a", [0]), ("b", [400])]).getLastD []
        = cleanupSweep 600 [("a", [0]), ("b", [400])]
    ∧ cleanupSweep 600 [("a", [0]), ("b", [400])]
        = deferredSweep 600 [("a", [0]), ("b", [400])] :=
  ⟨(cleanup_removes_exactly_idle 600 [("a", [0]), ("b", [400])] (by decide)).1
      ("b", [400]),
    (cleanup_removes_exactly_idle 600 [("a", [0]), ("b", [400])]
      (by decide)).2.1 (by decide),
    (cleanup_removes_exactly_idle 600 [("a", [0]), ("b", [400])]
      (by decide)).2.2⟩

/-! ## Dispatcher data model (models/message.go, services/ai_service.go)

`float64` temperature is modelled as `ℚ`: the code only compares it with
zero and passes it through, so no rounding behaviour is involved. -/

/-- models.GenerateRequest. -/
structure GenerateRequest where
  prompt : String
  maxTokens : Int
  temperature : ℚ
  userID : String
  deriving DecidableEq, Repr

/-- models.CompleteRequest. -/
structure CompleteRequest where
  prompt : String
  maxTokens : Int
  temperature : ℚ
  userID : String
  deriving DecidableEq, Repr

/-- models.ChatMessage. -/
structure ChatMessage where
  role : String
  content : String
  deriving DecidableEq, Repr

/-- models.ChatCompletionRequest. -/
structure ChatCompletionRequest where
  messages : List ChatMessage
  maxTokens : Int
  temperature : ℚ
  userID : String
  deriving DecidableEq, Repr

/-- services.LLMRequest: the JSON body sent to the backend /generate and
/complete endpoints (`max_length` carries the token limit). -/
structure LLMRequest where
  prompt : String
  maxLength : Int
  temperature : ℚ
  doSample : Bool
  deriving DecidableEq, Repr

/-- The JSON body GetChatCompletion sends to /chat/completions. -/
structure ChatBackendRequest where
  messages : List ChatMessage
  maxTokens : Int
  temperature : ℚ
  deriving DecidableEq, Repr

/-- The zero-value default injection the handlers and services perform on
the token limit: omitted or zero becomes 150. -/
def defaultMaxTokens (m : Int) : Int := if m = 0 then 150 else m

/-- The zero-value default injection on the temperature: omitted or zero
becomes 0.7. -/
def defaultTemperature (t : ℚ) : ℚ := if t = 0 then 7 / 10 else t

/-- The observable outcome of one HTTP exchange with the backend.
`parsed` stands for the designated content field of the decoded JSON body
(`generated_text` for /generate, `completion` for /complete, the
content-then-generated_text precedence for /chat/completions, the whole
object for /model-info); `none` models a body that does not decode or
lacks the field. -/
inductive BackendOutcome where
  /-- `client.Do` returned an error: transport failure or timeout. -/
  | transportFailure (errMsg : String) : BackendOutcome
  /-- The backend answered with a status, a raw body, and the decoded
  designated field when present. -/
  | response (status : Nat) (rawBody : String) (parsed : Option String) :
      BackendOutcome
  deriving DecidableEq, Repr

/-- The backend exchange failed at transport level or returned a
non-success status. -/
def isBackendFailure : BackendOutcome → Prop
  | .transportFailure _ => True
  | .response status _ _ => status ≠ 200

/-- services.callLLMEndpoint: transport errors, non-200 statuses,
undecodable bodies and empty generated text all surface as errors whose
text embeds backend detail exactly as the Go fmt.Errorf calls do. -/
def callLLMEndpoint (o : BackendOutcome) : Except String String :=
  match o with
  | .transportFailure msg =>
    .error ("failed to connect to LLM server: " ++ msg)
  | .response status rawBody parsed =>
    if status ≠ 200 then
      .error ("LLM server responded with status " ++ toString status
        ++ ": " ++ rawBody)
    else
      match parsed with
      | none => .error "failed to parse LLM response"
      | some text =>
        if text = "" then .error "LLM server returned empty generated text"
        else .ok text

/-- services.callLLMEndpointWithJSON: as `callLLMEndpoint` but the decoded
field is returned as is (GetChatCompletion does the field extraction and
reports the missing-field error itself). -/
def callLLMEndpointWithJSON (o : BackendOutcome) : Except String String :=
  match o with
  | .transportFailure msg =>
    .error ("failed to connect to LLM server: " ++ msg)
  | .response status rawBody parsed =>
    if status ≠ 200 then
      .error ("LLM server responded with status " ++ toString status
        ++ ": " ++ rawBody)
    else
      match parsed with
      | none => .error "unexpected response format from LLM server"
      | some content => .ok content

/-- services.GetGenerate: validate, re-apply the zero-value defaults,
build the backend body, call /generate.  The first component is the body
sent to the backend (`none` when validation failed before any call). -/
def getGenerate (prompt : String) (maxTokens : Int) (temperature : ℚ)
    (o : BackendOutcome) : Option LLMRequest × Except String String :=
  if prompt = "" then (none, .error "prompt cannot be empty")
  else
    let req : LLMRequest :=
      ⟨prompt, defaultMaxTokens maxTokens, defaultTemperature temperature, true⟩
    match callLLMEndpoint o with
    | .error e => (some req, .error ("generation failed: " ++ e))
    | .ok text => (some req, .ok text)

/-- services.GetComplete: same shape as GetGenerate, inlined HTTP call,
`completion` as the designated field, empty field rejected. -/
def getComplete (prompt : String) (maxTokens : Int) (temperature : ℚ)
    (o : BackendOutcome) : Option LLMRequest × Except String String :=
  if prompt = "" then (none, .error "prompt cannot be empty")
  else
    let req : LLMRequest :=
      ⟨prompt, defaultMaxTokens maxTokens, defaultTemperature temperature, true⟩
    match o with
    | .transportFailure msg =>
      (some req, .error ("failed to connect to LLM server: " ++ msg))
    | .response status rawBody parsed =>
      if status ≠ 200 then
        (some req, .error ("LLM server responded with status "
          ++ toString status ++ ": " ++ rawBody))
      else
        match parsed with
        | none => (some req, .error "failed to parse LLM response")
        | some completion =>
          if completion = "" then
            (some req, .error "LLM server returned empty or invalid completion")
          else (some req, .ok completion)

/-- services.GetChatCompletion: validate the message list, send it with the
token limit and temperature unchanged (no second defaulting for chat),
trim the returned content. -/
def getChatCompletion (messages : List ChatMessage) (maxTokens : Int)
    (temperature : ℚ) (o : BackendOutcome) :
    Option ChatBackendRequest × Except String String :=
  if messages = [] then (none, .error "messages cannot be empty")
  else
    let req : ChatBackendRequest := ⟨messages, maxTokens, temperature⟩
    match callLLMEndpointWithJSON o with
    | .error e => (some req, .error ("chat completion failed: " ++ e))
    | .ok content => (some req, .ok (goTrimSpace content.toList).asString)

/-- services.GetModelInfo: GET /model-info with the same transport and
status handling. -/
def getModelInfo (o : BackendOutcome) : Except String String :=
  match o with
  | .transportFailure msg =>
    .error ("failed to connect to LLM server: " ++ msg)
  | .response status rawBody parsed =>
    if status ≠ 200 then
      .error ("LLM server responded with status " ++ toString status
        ++ ": " ++ rawBody)
    else
      match parsed with
      | none => .error "failed to parse model info"
      | some info => .ok info

/-! ## Route handlers (handlers/ai_handler.go) -/

/-- net/http StatusText for the codes the handlers use. -/
def statusText (code : Nat) : String :=
  if code = 200 then "OK"
  else if code = 400 then "Bad Request"
  else if code = 405 then "Method Not Allowed"
  else if code = 429 then "Too Many Requests"
  else if code = 500 then "Internal Server Error"
  else ""

/-- handlers.sendErrorResponse: the standardized error envelope. -/
def sendErrorResponse (code : Nat) (message : String) : GatewayResponse :=
  ⟨code, none, none, none, ResponseBody.envelope (statusText code) code message⟩

/-- handlers.HandleGenerate.  `body = none` models a request body that does
not decode as JSON; the Bool records whether the backend was invoked. -/
def handleGenerate (method : String) (body : Option GenerateRequest)
    (o : BackendOutcome) : GatewayResponse × Bool :=
  if method ≠ "POST" then (sendErrorResponse 405 "Method not allowed", false)
  else
    match body with
    | none => (sendErrorResponse 400 "Invalid JSON format", false)
    | some req =>
      if req.prompt = "" then
        (sendErrorResponse 400 "Prompt cannot be empty", false)
      else
        match (getGenerate req.prompt (defaultMaxTokens req.maxTokens)
            (defaultTemperature req.temperature) o).2 with
        | .error _ => (sendErrorResponse 500 "Failed to get generation", true)
        | .ok text =>
          (⟨200, none, none, none,
            ResponseBody.success text req.userID "distilgpt2"⟩, true)

/-- handlers.HandleComplete. -/
def handleComplete (method : String) (body : Option CompleteRequest)
    (o : BackendOutcome) : GatewayResponse × Bool :=
  if method ≠ "POST" then (sendErrorResponse 405 "Method not allowed", false)
  else
    match body with
    | none => (sendErrorResponse 400 "Invalid JSON format", false)
    | some req =>
      if req.prompt = "" then
        (sendErrorResponse 400 "Prompt cannot be empty", false)
      else
        match (getComplete req.prompt (defaultMaxTokens req.maxTokens)
            (defaultTemperature req.temperature) o).2 with
        | .error _ => (sendErrorResponse 500 "Failed to get completion", true)
        | .ok text =>
          (⟨200, none, none, none,
            ResponseBody.success text req.userID "distilgpt2"⟩, true)

/-- handlers.HandleChatCompletion. -/
def handleChatCompletion (method : String)
    (body : Option ChatCompletionRequest) (o : BackendOutcome) :
    GatewayResponse × Bool :=
  if method ≠ "POST" then (sendErrorResponse 405 "Method not allowed", false)
  else
    match body with
    | none => (sendErrorResponse 400 "Invalid JSON format", false)
    | some req =>
      if req.messages = [] then
        (sendErrorResponse 400 "Messages cannot be empty", false)
      else
        match (getChatCompletion req.messages (defaultMaxTokens req.maxTokens)
            (defaultTemperature req.temperature) o).2 with
        | .error _ =>
          (sendErrorResponse 500 "Failed to get chat completion", true)
        | .ok text =>
          (⟨200, none, none, none,
            ResponseBody.success text req.userID "distilgpt2"⟩, true)

/-- handlers.HandleHealth: no method check; every verb is answered 200 with
the health payload, without any backend call. -/
def handleHealth (_method : String) : GatewayResponse × Bool :=
  (⟨200, none, none, none, ResponseBody.health⟩, false)

/-- handlers.HandleModelInfo: no method check; every verb triggers the
backend model-info call. -/
def handleModelInfo (_method : String) (o : BackendOutcome) :
    GatewayResponse × Bool :=
  match getModelInfo o with
  | .error _ => (sendErrorResponse 500 "Failed to get model information", true)
  | .ok _ => (⟨200, none, none, none, ResponseBody.modelInfo⟩, true)

/-! ## Claim C6: default-parameter injection -/

/-- Applying the handler default then the service default equals one
zero-test on the caller's value. -/
lemma defaultMaxTokens_idem (m : Int) :
    defaultMaxTokens (defaultMaxTokens m) = if m = 0 then 150 else m := by
  unfold defaultMaxTokens
  by_cases h : m = 0 <;> simp [h]

/-- Same for the temperature default. -/
lemma defaultTemperature_idem (t : ℚ) :
    defaultTemperature (defaultTemperature t) = if t = 0 then 7 / 10 else t := by
  unfold defaultTemperature
  by_cases h : t = 0 <;> simp [h] <;> norm_num

/-- The body GetGenerate sends is independent of the backend outcome. -/
lemma getGenerate_fst (p : String) (mt : Int) (tp : ℚ) (o : BackendOutcome) :
    (getGenerate p mt tp o).1
      = if p = "" then none
        else some ⟨p, defaultMaxTokens mt, defaultTemperature tp, true⟩ := by
  by_cases hp : p = ""
  · simp [getGenerate, hp]
  · cases hc : callLLMEndpoint o with
    | error e => simp [getGenerate, hp, hc]
    | ok text => simp [getGenerate, hp, hc]

/-- The body GetComplete sends is independent of the backend outcome. -/
lemma getComplete_fst (p : String) (mt : Int) (tp : ℚ) (o : BackendOutcome) :
    (getComplete p mt tp o).1
      = if p = "" then none
        else some ⟨p, defaultMaxTokens mt, defaultTemperature tp, true⟩ := by
  by_cases hp : p = ""
  · simp [getComplete, hp]
  · cases o with
    | transportFailure msg => simp [getComplete, hp]
    | response status rawBody parsed =>
      by_cases hs : status ≠ 200
      · simp [getComplete, hp, hs]
      · cases parsed with
        | none => simp [getComplete, hp, hs]
        | some completion =>
          by_cases hc : completion = "" <;> simp [getComplete, hp, hs, hc]

/-- The body GetChatCompletion sends is independent of the backend
outcome. -/
lemma getChatCompletion_fst (ms : List ChatMessage) (mt : Int) (tp : ℚ)
    (o : BackendOutcome) :
    (getChatCompletion ms mt tp o).1
      = if ms = [] then none else some ⟨ms, mt, tp⟩ := by
  by_cases hm : ms = []
  · simp [getChatCompletion, hm]
  · cases hc : callLLMEndpointWithJSON o with
    | error e => simp [getChatCompletion, hm, hc]
    | ok content => simp [getChatCompletion, hm, hc]

/-- C6: for generate, complete and chat requests that pass validation, a
zero (i.e. omitted) max_tokens reaches the backend as 150 and a zero
temperature as 0.7, while non-zero caller values pass through unchanged;
for all three operations the handler default composed with the service
behaviour equals one zero-test on the caller's value. -/
theorem dispatcher_default_injection :
    (∀ (req : GenerateRequest) (o : BackendOutcome), req.prompt ≠ "" →
      (getGenerate req.prompt (defaultMaxTokens req.maxTokens)
          (defaultTemperature req.temperature) o).1
        = some ⟨req.prompt,
            if req.maxTokens = 0 then 150 else req.maxTokens,
            if req.temperature = 0 then 7 / 10 else req.temperature, true⟩)
    ∧ (∀ (req : CompleteRequest) (o : BackendOutcome), req.prompt ≠ "" →
      (getComplete req.prompt (defaultMaxTokens req.maxTokens)
          (defaultTemperature req.temperature) o).1
        = some ⟨req.prompt,
            if req.maxTokens = 0 then 150 else req.maxTokens,
            if req.temperature = 0 then 7 / 10 else req.temperature, true⟩)
    ∧ (∀ (req : ChatCompletionRequest) (o : BackendOutcome),
        req.messages ≠ [] →
      (getChatCompletion req.messages (defaultMaxTokens req.maxTokens)
          (defaultTemperature req.temperature) o).1
        = some ⟨req.messages,
            if req.maxTokens = 0 then 150 else req.maxTokens,
            if req.temperature = 0 then 7 / 10 else req.temperature⟩) := by
  refine ⟨?_, ?_, ?_⟩
  · intro req o hp
    rw [getGenerate_fst, if_neg hp, defaultMaxTokens_idem,
      defaultTemperature_idem]
  · intro req o hp
    rw [getComplete_fst, if_neg hp, defaultMaxTokens_idem,
      defaultTemperature_idem]
  · intro req o hm
    rw [getChatCompletion_fst, if_neg hm]
    simp [defaultMaxTokens, defaultTemperature]

/-- Witness for C6: a generate request with both numeric fields zero is
sent to the backend with max length 150 and temperature 0.7. -/
theorem dispatcher_default_injection_witness :
    (getGenerate (GenerateRequest.mk "Hello" 0 0 "u").prompt
        (defaultMaxTokens (GenerateRequest.mk "Hello" 0 0 "u").maxTokens)
        (defaultTemperature (GenerateRequest.mk "Hello" 0 0 "u").temperature)
        (BackendOutcome.response 200 "" (some "t"))).1
      = some ⟨"Hello", 150, 7 / 10, true⟩ := by
  have h := dispatcher_default_injection.1 ⟨"Hello", 0, 0, "u"⟩
    (BackendOutcome.response 200 "" (some "t")) (by decide)
  simpa using h

/-! ## Claim C7: backend failures never leak to the client -/

/-- C7: every transport failure and every non-success backend status is
answered by the generate handler with HTTP 500 and the fixed generic
message.  The right-hand side is a constant independent of the outcome, so
no part of the backend body, address or error text reaches the client. -/
theorem backend_failure_maps_to_500_generic (req : GenerateRequest)
    (o : BackendOutcome) (hp : req.prompt ≠ "") (hf : isBackendFailure o) :
    handleGenerate "POST" (some req) o
      = (sendErrorResponse 500 "Failed to get generation", true) := by
  cases o with
  | transportFailure msg =>
    simp [handleGenerate, hp, getGenerate, callLLMEndpoint]
  | response status rawBody parsed =>
    have hs : status ≠ 200 := hf
    simp [handleGenerate, hp, getGenerate, callLLMEndpoint, hs]

/-- Witness for C7: a backend 503 with a detailed error page is answered
500 with the generic envelope. -/
theorem backend_failure_maps_to_500_generic_witness :
    handleGenerate "POST" (some ⟨"Hello", 0, 0, "u"⟩)
        (BackendOutcome.response 503 "detailed upstream error page" none)
      = (sendErrorResponse 500 "Failed to get generation", true) :=
  backend_failure_maps_to_500_generic ⟨"Hello", 0, 0, "u"⟩
    (BackendOutcome.response 503 "detailed upstream error page" none)
    (by decide) (show (503 : Nat) ≠ 200 by decide)

/-! ## Claim C9: wrong-verb handling per route -/

/-- C9 counterexample: /health performs no method check — a DELETE request
(wrong verb for this GET route) is answered 200, not 405. -/
theorem health_wrong_verb_counterexample :
    (handleHealth "DELETE").1.status = 200
    ∧ ¬ (handleHealth "DELETE").1.status = 405 :=
  ⟨rfl, by decide⟩

/-- C9 (amended): on the three POST AI routes, a request whose verb is
neither POST nor the CORS preflight OPTIONS is rejected with 405 and the
standardized error envelope without invoking the backend — both by the
bare handlers and through the wired middleware pipeline, where such a
request that the rate limiter admits reaches the handler and the 405
envelope passes through unchanged (OPTIONS itself never reaches the
handlers: the CORS stage answers it first); /health and /ai/model-info
perform no method check — any verb is served (200 for health; 200 or 500
for model-info), never 405. -/
theorem post_routes_reject_wrong_verb (method : String)
    (gb : Option GenerateRequest) (cb : Option CompleteRequest)
    (hb : Option ChatCompletionRequest) (o o2 : BackendOutcome)
    (hm : method ≠ "POST") (hopt : method ≠ "OPTIONS") :
    handleGenerate method gb o
        = (sendErrorResponse 405 "Method not allowed", false)
    ∧ handleComplete method cb o
        = (sendErrorResponse 405 "Method not allowed", false)
    ∧ handleChatCompletion method hb o
        = (sendErrorResponse 405 "Method not allowed", false)
    ∧ (∀ (limit now : Int) (r : Request) (s : Store), r.method = method →
        (isAllowedStore now s (getClientIP r) limit).1 = true →
        (protectedHandler
            (fun rq st => ((handleGenerate rq.method gb o).1, st))
            limit now r s).1.status = 405
          ∧ (protectedHandler
              (fun rq st => ((handleGenerate rq.method gb o).1, st))
              limit now r s).1.body
            = ResponseBody.envelope (statusText 405) 405 "Method not allowed")
    ∧ (handleHealth method).1.status = 200
    ∧ ((handleModelInfo method o2).1.status = 200
        ∨ (handleModelInfo method o2).1.status = 500) := by
  refine ⟨?_, ?_, ?_, ?_, rfl, ?_⟩
  · simp [handleGenerate, hm]
  · simp [handleComplete, hm]
  · simp [handleChatCompletion, hm]
  · intro limit now r s hr hadm
    have hnm : r.method ≠ "POST" := by rw [hr]; exact hm
    have hno : r.method ≠ "OPTIONS" := by rw [hr]; exact hopt
    have hgen : (handleGenerate r.method gb o).1
        = sendErrorResponse 405 "Method not allowed" := by
      simp [handleGenerate, hnm]
    constructor
    · simp [protectedHandler, corsMiddleware, hno, rateLimitMiddleware,
        hadm, hgen, sendErrorResponse]
    · simp [protectedHandler, corsMiddleware, hno, rateLimitMiddleware,
        hadm, hgen, sendErrorResponse]
  · cases hg : getModelInfo o2 with
    | error e =>
      right
      simp [handleModelInfo, hg, sendErrorResponse]
    | ok v =>
      left
      simp [handleModelInfo, hg]

/-- Witness for C9 (amended) at the verb DELETE (neither POST nor OPTIONS),
including the wired generate route on a fresh store whose rate limiter
admits the request. -/
theorem post_routes_reject_wrong_verb_witness :
    handleGenerate "DELETE" none (BackendOutcome.response 200 "" (some "t"))
        = (sendErrorResponse 405 "Method not allowed", false)
    ∧ (protectedHandler
        (fun rq st =>
          ((handleGenerate rq.method none
              (BackendOutcome.response 200 "" (some "t"))).1, st))
        30 0 ⟨"DELETE", "", "", "1.2.3.4:5"⟩ []).1.status = 405
    ∧ (handleHealth "DELETE").1.status = 200 := by
  have h := post_routes_reject_wrong_verb "DELETE" none none none
    (BackendOutcome.response 200 "" (some "t"))
    (BackendOutcome.response 200 "" (some "t")) (by decide) (by decide)
  refine ⟨h.1, ?_, h.2.2.2.2.1⟩
  exact (h.2.2.2.1 30 0 ⟨"DELETE", "", "", "1.2.3.4:5"⟩ [] rfl (by decide)).1

end AiGateway
